import Mathlib

/-!
Verification development for the outreach batch pipeline:
a shallow embedding of the email scheduler, the message/batch state
models and the match-scoring engine, together with theorems settling
the specification claims about them.
-/

/-! ## Scheduler (src/backend/services/email/scheduler.py)

`datetime` values are modelled as naive local timestamps counted in whole
seconds from an arbitrary epoch; a day is 86400 seconds, an hour 3600.
The `pytz` timezone resolution only selects which local clock the
timestamps are read on, so it does not appear in the model.
-/

namespace Scheduler

/-- The `.hour` attribute of a datetime. -/
def hourOf (t : Nat) : Nat := t / 3600 % 24

/-- Embeds `EmailScheduler.OPTIMAL_HOURS = list(range(9, 18))`. -/
def OPTIMAL_HOURS : List Nat := List.range' 9 9

/-- Embeds `t.hour in OPTIMAL_HOURS`. -/
def isOptimalHour (t : Nat) : Bool := decide (hourOf t ∈ OPTIMAL_HOURS)

/-- Embeds `(t + timedelta(days=1)).replace(hour=9, minute=0, second=0, microsecond=0)`. -/
def nextDay9AM (t : Nat) : Nat := (t + 86400) / 86400 * 86400 + 9 * 3600

/-- Body of the `while current_time.hour not in self.OPTIMAL_HOURS:` loop in
`schedule_batch`.  After one `nextDay9AM` step the hour is 9, which is in
`OPTIMAL_HOURS` (`isOptimalHour_nextDay9AM`), so the while loop runs at most
once and is embedded as a single conditional. -/
def skipNonOptimal (t : Nat) : Nat :=
  if isOptimalHour t then t else nextDay9AM t

/-- Embeds `EmailScheduler.schedule_batch(batch_size, interval_minutes, start_time)`
with `start_time` passed explicitly (the Python default start is
`schedule_email`, embedded below): append the current cursor, advance it by
`interval_minutes`, then roll it past non-optimal hours. -/
def schedule_batch : Nat → Nat → Nat → List Nat
  | 0, _, _ => []
  | n + 1, interval, cur =>
      cur :: schedule_batch n interval (skipNonOptimal (cur + 60 * interval))

/-- The no-preferred-hour path of `EmailScheduler.schedule_email(timezone)`,
with `now` the current local time in the resolved timezone. -/
def schedule_email_auto (now : Nat) : Nat :=
  if isOptimalHour now then now + 60
  else if hourOf now < 9 then now / 86400 * 86400 + 9 * 3600
  else nextDay9AM now

/-- Embeds `EmailScheduler.schedule_email(timezone, preferred_hour)`.  Python's
truthiness test `if preferred_hour and preferred_hour in self.OPTIMAL_HOURS`
treats `0` as absent, which is subsumed by `0 ∉ OPTIMAL_HOURS`. -/
def schedule_email (now : Nat) (preferred_hour : Option Nat) : Nat :=
  match preferred_hour with
  | some p =>
      if p ∈ OPTIMAL_HOURS then
        let scheduled := now / 86400 * 86400 + p * 3600
        if scheduled ≤ now then scheduled + 86400 else scheduled
      else schedule_email_auto now
  | none => schedule_email_auto now

/-- Number of scheduled times falling in the rolling 60-minute window
starting at `w`. -/
def countInWindow (times : List Nat) (w : Nat) : Nat :=
  (times.filter (fun t => decide (w ≤ t ∧ t < w + 3600))).length

/-- Relation between consecutive scheduled times produced by `schedule_batch`:
the later one is either exactly `interval` minutes after the earlier one, or
09:00 on a strictly later day. -/
def stepRel (interval a b : Nat) : Prop :=
  b = a + 60 * interval ∨ ∃ d, b = d * 86400 + 9 * 3600 ∧ a / 86400 < d

end Scheduler

/-! ## Email and batch models (src/backend/models/email.py)

Timestamps (`datetime.utcnow()`) are modelled as `Nat` seconds and passed in
explicitly as `now`.  `status` is a non-nullable column with default `draft`,
so it is modelled as always present.
-/

namespace Models

/-- Embeds `EmailStatus` enumeration. -/
inductive EmailStatus
  | draft
  | pending_approval
  | approved
  | scheduled
  | sending
  | sent
  | delivered
  | opened
  | replied
  | failed
  | bounced
  | rejected
deriving DecidableEq, Repr

/-- One record appended to `status_history` by `Email.update_status`. -/
structure HistEntry where
  from_status : EmailStatus
  to_status : EmailStatus
  timestamp : Nat
  notes : Option String
deriving DecidableEq, Repr

/-- The fields of an `Email` row touched by the embedded operations. -/
structure Email where
  status : EmailStatus := .draft
  status_history : List HistEntry := []
  scheduled_time : Option Nat := none
  sent_at : Option Nat := none
  delivered_at : Option Nat := none
  opened_at : Option Nat := none
  replied_at : Option Nat := none
  last_opened_at : Option Nat := none
  open_count : Nat := 0
  retry_count : Nat := 0
  max_retries : Nat := 3
  error_message : Option String := none
  error_code : Option String := none
  last_error : Option Nat := none
  approved_by : Option Nat := none
  approved_at : Option Nat := none
deriving DecidableEq, Repr

/-- Embeds `Email.update_status(new_status, notes)` at current time `now`: it
unconditionally sets the status, appends one `(from, to, timestamp, notes)`
record to `status_history`, and stamps the timestamp field matching the new
status.  The source has no transition table and raises no
`InvalidTransition`. -/
def update_status (now : Nat) (new_status : EmailStatus)
    (notes : Option String) (e : Email) : Email :=
  let e1 := { e with
    status := new_status,
    status_history := e.status_history ++
      [{ from_status := e.status, to_status := new_status,
         timestamp := now, notes := notes }] }
  match new_status with
  | .sent => { e1 with sent_at := some now }
  | .delivered => { e1 with delivered_at := some now }
  | .opened =>
      { e1 with
        opened_at := if e1.opened_at = none then some now else e1.opened_at,
        last_opened_at := some now,
        open_count := e1.open_count + 1 }
  | .replied => { e1 with replied_at := some now }
  | _ => e1

/-- Embeds `Email.approve(user_id)`. -/
def approve (now user_id : Nat) (e : Email) : Email :=
  update_status now .approved (some "Email approved for sending")
    { e with approved_by := some user_id, approved_at := some now }

/-- Embeds `Email.schedule(send_time)`. -/
def schedule (now send_time : Nat) (e : Email) : Email :=
  update_status now .scheduled (some ("Scheduled for " ++ toString send_time))
    { e with scheduled_time := some send_time }

/-- Embeds `Email.mark_failed(error_message, error_code)`: records the error,
increments `retry_count`, then routes through `update_status` to `failed`. -/
def mark_failed (now : Nat) (msg : String) (code : Option String)
    (e : Email) : Email :=
  update_status now .failed (some ("Failed: " ++ msg))
    { e with error_message := some msg, error_code := code,
             last_error := some now, retry_count := e.retry_count + 1 }

/-- The counter, status and rate-limit fields of an `EmailBatch` row. -/
structure EmailBatch where
  total_count : Nat := 0
  draft_count : Nat := 0
  approved_count : Nat := 0
  sent_count : Nat := 0
  delivered_count : Nat := 0
  opened_count : Nat := 0
  replied_count : Nat := 0
  failed_count : Nat := 0
  status : String := "draft"
  send_rate : Nat := 50
  max_daily : Nat := 1000
deriving DecidableEq, Repr

/-- The list of every `EmailStatus` value. -/
def allStatuses : List EmailStatus :=
  [.draft, .pending_approval, .approved, .scheduled, .sending, .sent,
   .delivered, .opened, .replied, .failed, .bounced, .rejected]

/-- Embeds `EmailBatch.update_counts(session)`: recompute the counters from the
batch's emails, here passed as the list of their statuses (the grouped count
query).  `total_count` accumulates every group's count, so it equals the
number of emails; the named per-status counters are assigned from their
group; `FAILED` and `BOUNCED` both accumulate into `failed_count`;
`PENDING_APPROVAL`, `SCHEDULED`, `SENDING` and `REJECTED` groups contribute
to `total_count` only. -/
def update_counts (msgs : List EmailStatus) (b : EmailBatch) : EmailBatch :=
  { b with
    total_count := msgs.length,
    draft_count := msgs.count .draft,
    approved_count := msgs.count .approved,
    sent_count := msgs.count .sent,
    delivered_count := msgs.count .delivered,
    opened_count := msgs.count .opened,
    replied_count := msgs.count .replied,
    failed_count := msgs.count .failed + msgs.count .bounced }

end Models

/-! ## Batch manager (src/backend/services/email/batch_manager.py) -/

namespace BatchManager

open Models

open Models

/-- Embeds `BatchManager.mark_email_sent(email_id)`, restricted to the email and its
batch (the `Application` row update is orthogonal to every claim): set the
email to `sent` by direct assignment (not via `update_status`), stamp
`sent_at`, increment the batch's `sent_count`, and mark the batch
`completed` once `sent_count` reaches `total_count`. -/
def mark_email_sent (now : Nat) (e : Email) (b : EmailBatch) :
    Email × EmailBatch :=
  let e' := { e with status := EmailStatus.sent, sent_at := some now }
  let b1 := { b with sent_count := b.sent_count + 1 }
  let b' :=
    if b1.sent_count ≥ b1.total_count then { b1 with status := "completed" }
    else b1
  (e', b')

/-- Embeds `BatchManager.mark_email_failed(email_id, error_message)`: set the email
to `failed` by direct assignment, record the message, increment
`retry_count`.  The batch row is not touched at all — the function does not
even read it. -/
def mark_email_failed (msg : String) (e : Email) : Email :=
  { e with status := EmailStatus.failed, error_message := some msg,
           retry_count := e.retry_count + 1 }

/-- Embeds `BatchManager.get_batch_emails(batch_id, status)`: the batch's emails
filtered by status. -/
def get_batch_emails (emails : List Email) (status : EmailStatus) :
    List Email :=
  emails.filter (fun e => decide (e.status = status))

end BatchManager

/-! ## Concurrent batch send task (src/backend/tasks/email_tasks.py)

`send_email_batch_task` fetches the batch's `approved` emails once and then
sends each one in a loop, never re-reading an email's status before sending.
Two workers running the task over the same batch are modelled as an
interleaving of atomic steps: a `fetch` step is one
`get_batch_emails(batch_id, status='approved')` query, a `send` step is one
loop iteration (`smtp.send_email`, assumed to succeed, followed by
`mark_email_sent`).
-/

namespace DeliveryTask

open Models

/-- Shared store plus the two workers' private loop state: `queues w = none`
before worker `w` ran its query, `some ids` while it still has `ids` to
process; `sendLog` records every transport send performed, in order. -/
structure SysState where
  store : List (Nat × EmailStatus)
  queues : Fin 2 → Option (List Nat)
  sendLog : List (Fin 2 × Nat)

/-- Ids of the approved emails in the store, in store order — the result of
`get_batch_emails(batch_id, status='approved')`. -/
def approvedIds (store : List (Nat × EmailStatus)) : List Nat :=
  (store.filter (fun p => decide (p.2 = .approved))).map (·.1)

/-- Status write performed by `mark_email_sent` inside the loop. -/
def setStatus (i : Nat) (st : EmailStatus)
    (store : List (Nat × EmailStatus)) : List (Nat × EmailStatus) :=
  store.map (fun p => if p.1 = i then (p.1, st) else p)

/-- An atomic step of one of the two workers. -/
inductive Act
  | fetch (w : Fin 2)
  | send (w : Fin 2)

/-- Interleaved small-step semantics of the two workers.  A `send` step pops
the next id from the worker's snapshot, performs the transport send and
marks the email sent; there is no status re-check and no claim token —
exactly as in the source loop. -/
def execAct (s : SysState) : Act → SysState
  | .fetch w =>
      match s.queues w with
      | none =>
          { s with queues := fun w' =>
              if w' = w then some (approvedIds s.store) else s.queues w' }
      | some _ => s
  | .send w =>
      match s.queues w with
      | some (i :: rest) =>
          { store := setStatus i .sent s.store,
            queues := fun w' => if w' = w then some rest else s.queues w',
            sendLog := s.sendLog ++ [(w, i)] }
      | _ => s

/-- Run a whole interleaving. -/
def run (acts : List Act) (s : SysState) : SysState := acts.foldl execAct s

/-- Initial state: one batch holding the single approved email `1`; neither
worker has queried yet. -/
def init : SysState :=
  { store := [(1, .approved)], queues := fun _ => none, sendLog := [] }

/-- The interleaving in which both workers query the approved emails before
either begins sending. -/
def bothFetchFirst : List Act := [.fetch 0, .fetch 1, .send 0, .send 1]

/-- Number of transport sends performed for email `i`. -/
def sendsOf (i : Nat) (s : SysState) : Nat :=
  (s.sendLog.filter (fun p => decide (p.2 = i))).length

end DeliveryTask

/-! ## Matching engine (src/backend/services/ai/matching_engine.py)

The engine's method bodies call `self.gemini.generate_text(prompt, ...)`,
but `GeminiService` (src/backend/services/ai/gemini_service.py) defines no
`generate_text` method and nothing in the repository ever assigns one, so
every such call raises `AttributeError`.  In `calculate_match_score` the
surrounding `except Exception` catches it and returns
`self._fallback_matching(...)`: the AI-response branch, the bad-JSON branch
and the `return None` are all unreachable, and the scorer is the
deterministic keyword fallback.  Scores are exact rationals; Python's
2-decimal `round` is modelled as round-half-to-even on the exact value.
-/

namespace Matching

/-- Result dictionary of the matching engine. -/
structure MatchResult where
  score : Option ℚ := none
  reasons : List String := []
  collaboration_areas : List String := []
  concerns : List String := []
deriving DecidableEq, Repr

/-- Round half to even — Python's `round` applied to an exact value. -/
def roundHalfEven (x : ℚ) : ℤ :=
  let f := ⌊x⌋
  if x - f < 1/2 then f
  else if 1/2 < x - f then f + 1
  else if f % 2 = 0 then f else f + 1

/-- Python's `round(x, 2)` on an exact value. -/
def round2 (x : ℚ) : ℚ := (roundHalfEven (x * 100) : ℚ) / 100

/-- Python `set` of lower-cased interest strings. -/
def interestSet (l : List String) : Finset String :=
  (l.map String.toLower).toFinset

/-- Score computed by `MatchingEngine._fallback_matching` before rounding:
`overlap_count / total * 100` if the union is non-empty, else 0. -/
def fallbackScoreRaw (user prof : List String) : ℚ :=
  let us := interestSet user
  let ps := interestSet prof
  let total := (us ∪ ps).card
  if 0 < total then ((us ∩ ps).card : ℚ) / total * 100 else 0

/-- Embeds `MatchingEngine._fallback_matching(user_interests, professor_interests)`.
The surrounding `try/except` 50-point branch is unreachable for well-typed
inputs and is not modelled.  Python set iteration order is
implementation-defined, so the joined reasons string and the collaboration
list are modelled with the overlap sorted. -/
def fallback_matching (user prof : List String) : MatchResult :=
  let overlap := interestSet user ∩ interestSet prof
  { score := some (round2 (fallbackScoreRaw user prof)),
    reasons :=
      if 0 < overlap.card then
        ["Shared interests: " ++
          String.intercalate ", " (overlap.sort (· ≤ ·))]
      else ["No direct overlap in research interests"],
    collaboration_areas := overlap.sort (· ≤ ·),
    concerns := [] }

/-- Embeds `MatchingEngine.calculate_match_score(user_interests,
professor_interests, professor_publications)`.  The body builds a prompt
and calls `self.gemini.generate_text(prompt, max_tokens=500)`, which always
raises `AttributeError` because `GeminiService` defines no `generate_text`;
the outer `except Exception` catches it and returns
`self._fallback_matching(user_interests, professor_interests)`.  The
publications argument only varies the (discarded) prompt text. -/
def calculate_match_score (user prof : List String) : Option MatchResult :=
  some (fallback_matching user prof)

/-- A professor record as consumed by `rank_professors`. -/
structure Prof where
  pid : Nat
  research_interests : List String := []
deriving DecidableEq, Repr

/-- A professor dictionary after the loop added the `match_score`,
`match_reasons` and `collaboration_areas` keys. -/
structure RankedProf where
  prof : Prof
  match_score : ℚ := 0
  match_reasons : List String := []
  collaboration_areas : List String := []
deriving DecidableEq, Repr

/-- Body of the loop in `rank_professors`: attach
`match_result.get('score', 0)` and the reason lists; the zero-defaults
branch mirrors the source's `if match_result:` test (unreachable with the
always-fallback scorer, which never returns `None`). -/
def attachScore (user : List String) (p : Prof) : RankedProf :=
  match calculate_match_score user p.research_interests with
  | some r =>
      { prof := p, match_score := (r.score.getD 0),
        match_reasons := r.reasons,
        collaboration_areas := r.collaboration_areas }
  | none => { prof := p }

/-- Embeds `MatchingEngine.rank_professors(user_interests, professors)`:
attach a score to each professor in order, then
`ranked.sort(key=lambda x: x.get('match_score', 0), reverse=True)` —
Python's stable descending sort, modelled by the stable `mergeSort` with
the flipped score comparator. -/
def rank_professors (user : List String) (profs : List Prof) :
    List RankedProf :=
  (profs.map (attachScore user)).mergeSort
    (fun a b => decide (b.match_score ≤ a.match_score))

end Matching

/-! ## Lemmas and claim theorems -/

namespace Scheduler

lemma hourOf_nextDay9AM (t : Nat) : hourOf (nextDay9AM t) = 9 := by
  unfold hourOf nextDay9AM
  omega

lemma isOptimalHour_iff (t : Nat) :
    isOptimalHour t = true ↔ 9 ≤ hourOf t ∧ hourOf t < 18 := by
  unfold isOptimalHour OPTIMAL_HOURS
  rw [decide_eq_true_iff, List.mem_range'_1]

lemma isOptimalHour_nextDay9AM (t : Nat) :
    isOptimalHour (nextDay9AM t) = true := by
  rw [isOptimalHour_iff, hourOf_nextDay9AM]
  exact ⟨by omega, by omega⟩

lemma lt_nextDay9AM (t : Nat) : t < nextDay9AM t := by
  unfold nextDay9AM
  omega

lemma le_skipNonOptimal (t : Nat) : t ≤ skipNonOptimal t := by
  unfold skipNonOptimal
  split
  · exact le_refl t
  · exact (lt_nextDay9AM t).le

lemma isOptimalHour_skipNonOptimal (t : Nat) :
    isOptimalHour (skipNonOptimal t) = true := by
  unfold skipNonOptimal
  split
  · assumption
  · exact isOptimalHour_nextDay9AM t

lemma schedule_batch_length (n i : Nat) (start : Nat) :
    (schedule_batch n i start).length = n := by
  induction n generalizing start with
  | zero => rfl
  | succ m ih => simp [schedule_batch, ih]

lemma schedule_batch_head (n i : Nat) (start : Nat) :
    (schedule_batch (n + 1) i start).head? = some start := by
  simp [schedule_batch]

/-- Every element of a batch schedule started at an optimal-hour time has its
hour in `9..17`. -/
lemma schedule_batch_all_optimal (n i : Nat) (start : Nat)
    (hstart : isOptimalHour start = true) :
    ∀ t ∈ schedule_batch n i start, 9 ≤ hourOf t ∧ hourOf t ≤ 17 := by
  induction n generalizing start with
  | zero => simp [schedule_batch]
  | succ m ih =>
    intro t ht
    simp only [schedule_batch, List.mem_cons] at ht
    rcases ht with rfl | ht
    · have := (isOptimalHour_iff t).mp hstart
      omega
    · exact ih (skipNonOptimal (start + 60 * i))
        (isOptimalHour_skipNonOptimal _) t ht

lemma stepRel_skip (interval a : Nat) :
    stepRel interval a (skipNonOptimal (a + 60 * interval)) := by
  unfold skipNonOptimal
  split
  · exact Or.inl rfl
  · refine Or.inr ⟨(a + 60 * interval + 86400) / 86400, ?_, ?_⟩
    · unfold nextDay9AM
      rfl
    · omega

lemma lt_skip_interval (interval a : Nat) (h : 1 ≤ interval) :
    a < skipNonOptimal (a + 60 * interval) := by
  have := le_skipNonOptimal (a + 60 * interval)
  omega

lemma schedule_batch_chain_lt (n interval start : Nat) (h : 1 ≤ interval) :
    List.Chain' (· < ·) (schedule_batch n interval start) := by
  induction n generalizing start with
  | zero => simp [schedule_batch]
  | succ m ih =>
    rw [schedule_batch]
    refine List.chain'_cons'.mpr ⟨?_, ih _⟩
    intro y hy
    cases m with
    | zero => simp [schedule_batch] at hy
    | succ k =>
      rw [schedule_batch_head] at hy
      cases hy
      exact lt_skip_interval interval start h

lemma schedule_batch_chain_step (n interval start : Nat) :
    List.Chain' (stepRel interval) (schedule_batch n interval start) := by
  induction n generalizing start with
  | zero => simp [schedule_batch]
  | succ m ih =>
    rw [schedule_batch]
    refine List.chain'_cons'.mpr ⟨?_, ih _⟩
    intro y hy
    cases m with
    | zero => simp [schedule_batch] at hy
    | succ k =>
      rw [schedule_batch_head] at hy
      cases hy
      exact stepRel_skip interval start

/-- C10: for every batch_size `n ≥ 0`, every `interval_minutes ≥ 1` and every
start time, `schedule_batch` returns a list of exactly `n` datetimes in
strictly increasing order, where each successive time is either exactly
`interval_minutes` after the previous one or rolled forward to a later day's
09:00. -/
theorem c10_schedule_batch_shape (n interval start : Nat) (h : 1 ≤ interval) :
    (schedule_batch n interval start).length = n ∧
    List.Chain' (· < ·) (schedule_batch n interval start) ∧
    List.Chain' (stepRel interval) (schedule_batch n interval start) :=
  ⟨schedule_batch_length n interval start,
   schedule_batch_chain_lt n interval start h,
   schedule_batch_chain_step n interval start⟩

/-- Witness for C10 at `batch_size = 3`, `interval_minutes = 2`,
`start = 09:00` on day 0. -/
theorem c10_schedule_batch_shape_witness :
    1 ≤ 2 ∧
    ((schedule_batch 3 2 32400).length = 3 ∧
     List.Chain' (· < ·) (schedule_batch 3 2 32400) ∧
     List.Chain' (stepRel 2) (schedule_batch 3 2 32400)) :=
  ⟨by decide, c10_schedule_batch_shape 3 2 32400 (by decide)⟩

/-- C7 counterexample: the claim says every send time assigned by the
scheduler falls inside the 09:00–17:00 window, with out-of-window candidates
rolled forward.  But `schedule_batch` appends the start time before any
window check: starting a batch at 03:00 yields 03:00 itself as a scheduled
send time, hour 3, outside the window. -/
theorem c7_counterexample :
    10800 ∈ schedule_batch 1 2 10800 ∧ hourOf 10800 < 9 := by
  decide

/-- C7 amended: the first scheduled time always equals the start time
unchanged (it is never rolled into the window), and every *subsequent*
scheduled time has its hour in `9..17` — i.e. it lies in the window
09:00–17:59, which is wider than the claimed 09:00–17:00. -/
theorem c7_amended_tail_in_window (n interval start : Nat) :
    (schedule_batch (n + 1) interval start).head? = some start ∧
    ∀ t ∈ (schedule_batch (n + 1) interval start).drop 1,
      9 ≤ hourOf t ∧ hourOf t ≤ 17 := by
  refine ⟨schedule_batch_head n interval start, ?_⟩
  intro t ht
  rw [schedule_batch] at ht
  simp only [List.drop_succ_cons, List.drop_zero] at ht
  exact schedule_batch_all_optimal n interval _
    (isOptimalHour_skipNonOptimal _) t ht

/-- Witness for C7 (amended) at `n = 1`, `interval = 600` minutes,
`start = 09:00` on day 0: the second scheduled time is 09:00 on day 1
(118800), whose hour lies in `9..17`. -/
theorem c7_amended_tail_in_window_witness :
    (schedule_batch 2 600 32400).head? = some 32400 ∧
    (9 ≤ hourOf 118800 ∧ hourOf 118800 ≤ 17) :=
  ⟨(c7_amended_tail_in_window 1 600 32400).1,
   (c7_amended_tail_in_window 1 600 32400).2 118800 (by decide)⟩

/-- C2 counterexample: the claim says a batch of 5 approved messages with
`max_per_hour = 2` and `min_interval = 0` is scheduled into at least 3
distinct hourly windows with at most 2 per rolling 60-minute window.  The
scheduler has no per-hour cap at all: with interval 0 it puts all 5 messages
at the very same instant, so a single rolling 60-minute window holds 5 > 2
messages and only one distinct hourly window is used. -/
theorem c2_counterexample :
    2 < countInWindow (schedule_batch 5 0 32400) 32400 ∧
    ((schedule_batch 5 0 32400).map (fun t => t / 3600)).dedup.length = 1 := by
  decide

/-- C2 amended: `schedule_batch` enforces no `max_per_hour` limit.  With
interval 0 and an in-window start time every one of the `n` scheduled times
equals the start time, so all `n` messages of the batch land in one rolling
60-minute window. -/
theorem c2_amended_no_rate_cap (n start : Nat)
    (h : isOptimalHour start = true) :
    schedule_batch n 0 start = List.replicate n start ∧
    countInWindow (schedule_batch n 0 start) start = n := by
  have hrep : schedule_batch n 0 start = List.replicate n start := by
    induction n with
    | zero => rfl
    | succ m ih =>
      have hs : skipNonOptimal (start + 60 * 0) = start := by
        simp [skipNonOptimal, h]
      rw [schedule_batch, hs, ih, List.replicate_succ]
  refine ⟨hrep, ?_⟩
  rw [hrep]
  unfold countInWindow
  rw [List.filter_replicate]
  simp

/-- Witness for C2 (amended) at `n = 5`, `start = 09:00` on day 0. -/
theorem c2_amended_no_rate_cap_witness :
    isOptimalHour 32400 = true ∧
    (schedule_batch 5 0 32400 = List.replicate 5 32400 ∧
     countInWindow (schedule_batch 5 0 32400) 32400 = 5) :=
  ⟨by decide, c2_amended_no_rate_cap 5 32400 (by decide)⟩

end Scheduler

namespace Models

/-- C3 counterexample: the claim says a transition outside the lifecycle
table fails with `InvalidTransition` and leaves the message unchanged.  But
`Email.update_status` has no transition table: the transition
`sent → draft`, which no lifecycle admits, succeeds and mutates the message
(status changed, history appended). -/
theorem c3_counterexample :
    (update_status 0 .draft none { status := EmailStatus.sent }).status
        = EmailStatus.draft ∧
    (update_status 0 .draft none
        { status := EmailStatus.sent }).status_history.length = 1 := by
  decide

/-- C3 amended: every requested transition succeeds — `update_status`
unconditionally sets the new status, appends exactly one
`(from, to, timestamp, note)` record to the append-only history, and stamps
the timestamp field corresponding to the entered status. -/
theorem c3_amended_every_transition_succeeds (now : Nat) (st : EmailStatus)
    (notes : Option String) (e : Email) :
    (update_status now st notes e).status = st ∧
    (update_status now st notes e).status_history =
      e.status_history ++
        [{ from_status := e.status, to_status := st,
           timestamp := now, notes := notes }] ∧
    (update_status now st notes e).sent_at =
      (if st = .sent then some now else e.sent_at) ∧
    (update_status now st notes e).delivered_at =
      (if st = .delivered then some now else e.delivered_at) ∧
    (update_status now st notes e).opened_at =
      (if st = .opened then
        (if e.opened_at = none then some now else e.opened_at)
       else e.opened_at) ∧
    (update_status now st notes e).last_opened_at =
      (if st = .opened then some now else e.last_opened_at) ∧
    (update_status now st notes e).open_count =
      (if st = .opened then e.open_count + 1 else e.open_count) ∧
    (update_status now st notes e).replied_at =
      (if st = .replied then some now else e.replied_at) := by
  cases st <;> simp [update_status]

/-- C4 counterexample: the claim says each per-status counter equals the
number of the batch's messages currently in that status.  But for a batch
whose single message is `bounced`, `update_counts` reports `failed_count = 1`
while no message has status `failed` (bounced messages are folded into the
failed counter and there is no bounced counter at all). -/
theorem c4_counterexample :
    (update_counts [EmailStatus.bounced] {}).failed_count = 1 ∧
    [EmailStatus.bounced].count EmailStatus.failed = 0 := by
  decide

/-- C4 amended: after `update_counts`, `total_count` equals the number of the
batch's messages — which is the sum over all statuses of the per-status
message counts — and the named counters hold exact per-status counts, except
that `failed_count` holds failed plus bounced and the statuses
`pending_approval`, `scheduled`, `sending`, `rejected` contribute to
`total_count` only.  Counters are recomputed only when `update_counts` runs,
not after every message transition. -/
theorem c4_amended_update_counts (msgs : List EmailStatus) (b : EmailBatch) :
    (update_counts msgs b).total_count = msgs.length ∧
    msgs.length = (allStatuses.map (fun st => msgs.count st)).sum ∧
    (update_counts msgs b).draft_count = msgs.count .draft ∧
    (update_counts msgs b).approved_count = msgs.count .approved ∧
    (update_counts msgs b).sent_count = msgs.count .sent ∧
    (update_counts msgs b).delivered_count = msgs.count .delivered ∧
    (update_counts msgs b).opened_count = msgs.count .opened ∧
    (update_counts msgs b).replied_count = msgs.count .replied ∧
    (update_counts msgs b).failed_count =
      msgs.count .failed + msgs.count .bounced := by
  refine ⟨rfl, ?_, rfl, rfl, rfl, rfl, rfl, rfl, rfl⟩
  induction msgs with
  | nil => rfl
  | cons s t ih =>
    cases s <;> simp [allStatuses, List.count_cons] at ih ⊢ <;> omega

end Models

namespace BatchManager

open Models

open Models

/-- C5 counterexample: the claim says a batch becomes `completed` exactly
when every message reaches a terminal state, mixed outcomes included.  Take
a batch of 2 messages: one is marked sent, the other failed — both terminal —
yet the batch status is still `"sending"`, because completion is only
checked inside `mark_email_sent` and only as `sent_count >= total_count`
(and `mark_email_failed` does not touch the batch at all). -/
theorem c5_counterexample :
    (mark_email_sent 0 {} { total_count := 2, status := "sending" }).2.status
        = "sending" ∧
    (mark_email_sent 0 {} { total_count := 2, status := "sending" }).1.status
        = EmailStatus.sent ∧
    (mark_email_failed "SMTP send failed" {}).status = EmailStatus.failed ∧
    "sending" ≠ "completed" := by
  refine ⟨rfl, rfl, rfl, ?_⟩
  decide

/-- C5 amended: a batch transitions to `completed` exactly when the sent
counter reaches `total_count` — i.e. only when every message was marked
sent; `mark_email_failed` never changes any batch field, so a batch with a
failed message is never completed by the manager. -/
theorem c5_amended_completion_is_all_sent (now : Nat) (e e2 : Email)
    (b : EmailBatch) (msg : String) :
    (mark_email_sent now e b).2.status =
      (if b.sent_count + 1 ≥ b.total_count then "completed" else b.status) ∧
    (mark_email_sent now e b).2.sent_count = b.sent_count + 1 ∧
    (mark_email_sent now e b).1.status = EmailStatus.sent ∧
    (mark_email_sent now e b).1.sent_at = some now ∧
    (mark_email_failed msg e2).status = EmailStatus.failed := by
  by_cases hc : b.total_count ≤ b.sent_count + 1
  · simp [mark_email_sent, mark_email_failed, hc]
  · simp [mark_email_sent, mark_email_failed, hc]

/-- C6 counterexample: the claim says a message whose first delivery attempt
fails permanently ends with `retry_count == 0`.  But both failure paths
increment the counter: a fresh message (`retry_count = 0`) put through
`BatchManager.mark_email_failed` — or through `Email.mark_failed` — ends
with `retry_count = 1`. -/
theorem c6_counterexample :
    (mark_email_failed "Invalid address" {}).retry_count = 1 ∧
    (Models.mark_failed 0 "Invalid address" none {}).retry_count = 1 := by
  decide

/-- C6 amended: a message that fails on its first attempt ends in terminal
status `failed` with `retry_count == 1` (the counter is incremented on every
failure), with the error recorded in `error_message`; no further attempts
occur, since the batch send loop only fetches `approved` emails and a
`failed` email is excluded by that filter. -/
theorem c6_amended_first_failure (msg : String) (e : Email) :
    (mark_email_failed msg e).status = EmailStatus.failed ∧
    (mark_email_failed msg e).error_message = some msg ∧
    (mark_email_failed msg e).retry_count = e.retry_count + 1 ∧
    get_batch_emails [mark_email_failed msg e] .approved = [] := by
  simp [mark_email_failed, get_batch_emails]

end BatchManager

namespace DeliveryTask

open Models

/-- C1: the claim says the `scheduled → sending` takeover is an exclusive
atomic compare-and-swap, so concurrent workers deliver each message at most
once per attempt.  The source has no claim step of any kind: in the
interleaving where both workers query the batch's approved emails before
either sends, the single email `1` is sent by *both* workers — two transport
sends of the same message with no intervening reclaim. -/
theorem c1_no_claim_double_send :
    (run bothFetchFirst init).sendLog = [(0, 1), (1, 1)] ∧
    sendsOf 1 (run bothFetchFirst init) = 2 := by
  decide

end DeliveryTask

namespace Matching

lemma le_roundHalfEven (n : ℤ) (x : ℚ) (h : (n : ℚ) ≤ x) :
    n ≤ roundHalfEven x := by
  have hf : n ≤ ⌊x⌋ := Int.le_floor.mpr h
  unfold roundHalfEven
  dsimp only
  split
  · exact hf
  · split
    · omega
    · split <;> omega

lemma roundHalfEven_le (x : ℚ) (n : ℤ) (h : x ≤ (n : ℚ)) :
    roundHalfEven x ≤ n := by
  have hfl : (⌊x⌋ : ℚ) ≤ x := Int.floor_le x
  have hf : ⌊x⌋ ≤ n := by
    have := Int.floor_le_floor h
    simpa using this
  unfold roundHalfEven
  dsimp only
  split
  · exact hf
  · rename_i h1
    split
    · rename_i h2
      by_contra hn
      have hn' : n ≤ ⌊x⌋ := by omega
      have : (n : ℚ) ≤ (⌊x⌋ : ℚ) := by exact_mod_cast hn'
      linarith
    · rename_i h2
      have heq : x - (⌊x⌋ : ℚ) = 1/2 := by
        push_neg at h1 h2
        linarith
      split
      · exact hf
      · by_contra hn
        have hn' : n ≤ ⌊x⌋ := by omega
        have : (n : ℚ) ≤ (⌊x⌋ : ℚ) := by exact_mod_cast hn'
        linarith

lemma round2_nonneg (x : ℚ) (h : 0 ≤ x) : 0 ≤ round2 x := by
  unfold round2
  have h0 : (0 : ℤ) ≤ roundHalfEven (x * 100) :=
    le_roundHalfEven 0 (x * 100) (by push_cast; linarith)
  have : (0 : ℚ) ≤ (roundHalfEven (x * 100) : ℚ) := by exact_mod_cast h0
  linarith

lemma round2_le_100 (x : ℚ) (h : x ≤ 100) : round2 x ≤ 100 := by
  unfold round2
  have h0 : roundHalfEven (x * 100) ≤ (10000 : ℤ) :=
    roundHalfEven_le (x * 100) 10000 (by push_cast; linarith)
  have : (roundHalfEven (x * 100) : ℚ) ≤ (10000 : ℚ) := by exact_mod_cast h0
  linarith

lemma fallbackScoreRaw_nonneg (user prof : List String) :
    0 ≤ fallbackScoreRaw user prof := by
  unfold fallbackScoreRaw
  dsimp only
  split
  · positivity
  · exact le_refl 0

lemma fallbackScoreRaw_le_100 (user prof : List String) :
    fallbackScoreRaw user prof ≤ 100 := by
  unfold fallbackScoreRaw
  dsimp only
  split
  · rename_i hpos
    have hsub : interestSet user ∩ interestSet prof ⊆
        interestSet user ∪ interestSet prof :=
      Finset.inter_subset_left.trans Finset.subset_union_left
    have hcard := Finset.card_le_card hsub
    have htot : (0 : ℚ) <
        ((interestSet user ∪ interestSet prof).card : ℚ) := by
      exact_mod_cast hpos
    have h1 : ((interestSet user ∩ interestSet prof).card : ℚ) /
        ((interestSet user ∪ interestSet prof).card : ℚ) ≤ 1 := by
      rw [div_le_one htot]
      exact_mod_cast hcard
    nlinarith
  · norm_num

lemma fallback_matching_score (user prof : List String) :
    (fallback_matching user prof).score =
      some (round2 (fallbackScoreRaw user prof)) := rfl

lemma fallback_matching_empty : (fallback_matching [] []).score = some 0 := by
  have h : fallbackScoreRaw [] [] = 0 := by
    unfold fallbackScoreRaw interestSet
    simp
  rw [fallback_matching_score, h]
  unfold round2 roundHalfEven
  norm_num

lemma attachScore_prof (user : List String) (p : Prof) :
    (attachScore user p).prof = p := by
  unfold attachScore
  split <;> rfl

/-- C9: for every input with missing (empty) interest lists the match
scorer returns a result with score 0 and never raises — the
`generate_text` call always raises `AttributeError` (the method does not
exist on `GeminiService`), the `except Exception` catches it, and the
keyword fallback returns score 0 for empty sets; in general the returned
score always lies in [0, 100]. -/
theorem c9_missing_interests_zero_and_bounded (user prof : List String) :
    calculate_match_score [] [] = some (fallback_matching [] []) ∧
    (fallback_matching [] []).score = some 0 ∧
    calculate_match_score user prof = some (fallback_matching user prof) ∧
    (fallback_matching user prof).score =
      some (round2 (fallbackScoreRaw user prof)) ∧
    0 ≤ round2 (fallbackScoreRaw user prof) ∧
    round2 (fallbackScoreRaw user prof) ≤ 100 :=
  ⟨rfl, fallback_matching_empty, rfl, fallback_matching_score user prof,
   round2_nonneg _ (fallbackScoreRaw_nonneg user prof),
   round2_le_100 _ (fallbackScoreRaw_le_100 user prof)⟩

/-- C8 counterexample: the claim says equal-score ties are broken by
recipient identifier ascending.  With empty user interests both professors
score 0 through the (always-used) deterministic fallback, and the stable
sort keeps the input order `[pid 2, pid 1]` instead of reordering to the
identifier-ascending `[1, 2]`. -/
theorem c8_counterexample :
    (rank_professors [] [{ pid := 2, research_interests := ["a"] },
        { pid := 1, research_interests := ["b"] }]).map
      (fun r => r.prof.pid) = [2, 1] ∧
    ([2, 1] : List Nat) ≠ [1, 2] := by
  constructor
  · have ha : fallbackScoreRaw [] ["a"] = 0 := by
      simp [fallbackScoreRaw, interestSet]
    have hb : fallbackScoreRaw [] ["b"] = 0 := by
      simp [fallbackScoreRaw, interestSet]
    have hr : round2 0 = 0 := by
      unfold round2 roundHalfEven
      norm_num
    simp [rank_professors, attachScore, calculate_match_score,
      fallback_matching_score, ha, hb, hr, List.mergeSort]
  · decide

/-- C8 amended: match scoring is deterministic — the AI call always raises
`AttributeError` and the deterministic keyword fallback is used, so
identical inputs always yield identical scores — and the ranked professor
list is a permutation of the input sorted by match score descending; but
equal-score ties keep the professors' input order (Python's stable sort),
they are not re-ordered by recipient identifier ascending. -/
theorem c8_amended_sorted_perm (user prof : List String)
    (profs : List Prof) :
    calculate_match_score user prof = some (fallback_matching user prof) ∧
    List.Sorted (fun a b : RankedProf => b.match_score ≤ a.match_score)
      (rank_professors user profs) ∧
    ((rank_professors user profs).map (fun r => r.prof)).Perm profs := by
  refine ⟨rfl, ?_, ?_⟩
  · have htrans : ∀ a b c : RankedProf,
        decide (b.match_score ≤ a.match_score) = true →
        decide (c.match_score ≤ b.match_score) = true →
        decide (c.match_score ≤ a.match_score) = true := by
      intro a b c hab hbc
      exact decide_eq_true
        (le_trans (of_decide_eq_true hbc) (of_decide_eq_true hab))
    have htotal : ∀ a b : RankedProf,
        (decide (b.match_score ≤ a.match_score) ||
         decide (a.match_score ≤ b.match_score)) = true := by
      intro a b
      rcases le_total b.match_score a.match_score with h | h <;> simp [h]
    have h := List.sorted_mergeSort htrans htotal
      (profs.map (attachScore user))
    exact h.imp (fun hab => of_decide_eq_true hab)
  · have hp := List.mergeSort_perm (profs.map (attachScore user))
      (fun a b => decide (b.match_score ≤ a.match_score))
    have hm := hp.map (fun r => r.prof)
    rw [List.map_map] at hm
    have he : profs.map ((fun r : RankedProf => r.prof) ∘ attachScore user)
        = profs := by
      have hcongr : ∀ p ∈ profs,
          ((fun r : RankedProf => r.prof) ∘ attachScore user) p = p := by
        intro p _
        exact attachScore_prof user p
      rw [List.map_congr_left hcongr]
      simp
    rw [he] at hm
    exact hm

end Matching
